import Mathlib

/-!
Shallow embedding of the max-in-flight admission limiter
(`scheduler/limiter.go` of agent-stack-k8s) and proofs about it.

The Go program keeps a set of in-flight job UUIDs (`inFlight`), a
buffered channel of completion tokens (`completions`, buffer size
`maxInFlight` fixed at construction), and an integer ceiling
`MaxInFlight`.  We model:

  * the in-flight map `map[string]struct{}` as a `Finset String`;
  * the channel contents as a `Nat` counting queued tokens, together
    with the explicit capacity `maxInFlight`; a channel receive is a
    decrement (blocking when the count is zero), a channel send has a
    free slot exactly when the count is below the capacity;
  * the downstream scheduler `monitor.JobHandler.Create` as a function
    from the job UUID to `Option String` (`some e` = error `e`,
    `none` = success);
  * `context.Context` cancellation as the boolean "is `ctx.Done()`
    ready at the `select` statement of `Create`";
  * a Kubernetes `batchv1.Job` as its label list and status-condition
    list (the only fields the Go file reads).

Blocking operations return `Option`: `none` means the call cannot make
progress at this state (it is parked on the channel receive).
-/

namespace Limiter

/-- One entry of `job.Status.Conditions`: the Go code reads only
`cond.Type`; we also carry `cond.Status` to reason about what the code
ignores. -/
structure JobCondition where
  condType : String
  status : String
  deriving DecidableEq, Repr

/-- `batchv1.JobComplete`. -/
def JobComplete : String := "Complete"

/-- `batchv1.JobFailed`. -/
def JobFailed : String := "Failed"

/-- The fields of a `batchv1.Job` that `limiter.go` reads: its labels
and its status conditions. -/
structure K8sJob where
  labels : List (String × String)
  conditions : List JobCondition
  deriving DecidableEq, Repr

/-- The UUID label key `api.UUIDLabel` (defined in the `api` package;
only its identity matters here, never its value). -/
def UUIDLabel : String := "buildkite.com/job-uuid"

/-- Go map lookup `labels[key]`: the zero value `""` when absent. -/
def lookupLabel (ls : List (String × String)) (key : String) : String :=
  match ls.find? (fun p => p.1 = key) with
  | some p => p.2
  | none => ""

/-- `job.Labels[api.UUIDLabel]`. -/
def getUuid (j : K8sJob) : String := lookupLabel j.labels UUIDLabel

/-- `isFinished` (limiter.go:149-158): fold over the status conditions,
setting `finished` when a condition's type is `JobComplete` or
`JobFailed`; the condition's `Status` field is never consulted. -/
def isFinished (j : K8sJob) : Bool :=
  j.conditions.foldl
    (fun finished cond =>
      if cond.condType = JobComplete ∨ cond.condType = JobFailed then true
      else finished)
    false

/-- The state of a `MaxInFlightLimiter`: the ceiling, the in-flight
set, and the number of tokens queued in the `completions` channel
(whose capacity is `maxInFlight`, fixed by `NewLimiter`). -/
structure State where
  maxInFlight : Nat
  inFlight : Finset String
  completions : Nat
  deriving DecidableEq

/-- `NewLimiter` (limiter.go:30-38): empty in-flight set, empty channel
of capacity `maxInFlight`. -/
def newLimiter (maxInFlight : Nat) : State :=
  { maxInFlight := maxInFlight, inFlight := ∅, completions := 0 }

/-- Outcome of one `Create`/`add` call: the returned error (`none` =
nil), the state afterwards, and how many downstream
`scheduler.Create` calls were performed. -/
structure OpResult where
  err : Option String
  state : State
  launches : Nat
  deriving DecidableEq

/-- `add` (limiter.go:85-98): under the exclusive lock, skip when the
UUID is already in flight; otherwise call the downstream scheduler and
record the UUID only on success. -/
def add (downstream : String → Option String) (l : State) (uuid : String) :
    OpResult :=
  if uuid ∈ l.inFlight then ⟨none, l, 0⟩
  else
    match downstream uuid with
    | some e => ⟨some e, l, 1⟩
    | none => ⟨none, { l with inFlight := insert uuid l.inFlight }, 1⟩

/-- The resumption of a caller parked at `<-l.completions`
(limiter.go:74): it completes only when a token is queued, consumes
that token, then runs the `select` on `ctx.Done()` (limiter.go:77-82)
and either returns nil (cancelled) or performs `add`. -/
def blockedReceive (downstream : String → Option String) (l : State)
    (uuid : String) (cancelled : Bool) : Option OpResult :=
  match l.completions with
  | 0 => none
  | n + 1 =>
      let l1 : State := { l with completions := n }
      if cancelled then some ⟨none, l1, 0⟩
      else some (add downstream l1 uuid)

/-- `Create` (limiter.go:68-83): read the in-flight size; when
`MaxInFlight > 0` and the size has reached it, receive one completion
token (blocking — `none` — while none is queued); then `select` on
`ctx.Done()`: return nil when cancelled, otherwise `add`.
`cancelled` is whether `ctx.Done()` is ready at that `select`. -/
def create (downstream : String → Option String) (l : State)
    (uuid : String) (cancelled : Bool) : Option OpResult :=
  if 0 < l.maxInFlight ∧ l.maxInFlight ≤ l.inFlight.card then
    blockedReceive downstream l uuid cancelled
  else if cancelled then some ⟨none, l, 0⟩
  else some (add downstream l uuid)

/-- `markComplete` (limiter.go:140-147): when the UUID is tracked,
remove it and send one token on `completions`; otherwise do nothing.
Returns the new state and the number of tokens sent (0 or 1).  The
send itself is modelled as an unconditional enqueue; whether it had a
free slot in the channel buffer is `sendHasFreeSlot` below. -/
def markComplete (l : State) (uuid : String) : State × Nat :=
  if uuid ∈ l.inFlight then
    ({ l with inFlight := l.inFlight.erase uuid,
              completions := l.completions + 1 }, 1)
  else (l, 0)

/-- The channel send performed by `markComplete` has a free buffer
slot exactly when fewer than `maxInFlight` (the capacity fixed by
`NewLimiter`) tokens are queued; otherwise the send blocks until some
`Create` receives. -/
def sendHasFreeSlot (l : State) : Prop :=
  l.completions < l.maxInFlight

instance (l : State) : Decidable (sendHasFreeSlot l) := by
  unfold sendHasFreeSlot; infer_instance

/-- `OnAdd` (limiter.go:101-113): for a non-terminal job, record its
UUID when not already in flight; terminal jobs are ignored. -/
def onAdd (l : State) (j : K8sJob) : State :=
  if isFinished j then l
  else if getUuid j ∈ l.inFlight then l
  else { l with inFlight := insert (getUuid j) l.inFlight }

/-- `OnUpdate` (limiter.go:116-130): the old object is ignored; a
terminal new object goes through `markComplete`, a non-terminal one is
recorded when not already in flight. Returns the state and the number
of tokens sent. -/
def onUpdate (l : State) (_old : K8sJob) (j : K8sJob) : State × Nat :=
  if isFinished j then markComplete l (getUuid j)
  else if getUuid j ∈ l.inFlight then (l, 0)
  else ({ l with inFlight := insert (getUuid j) l.inFlight }, 0)

/-- `OnDelete` (limiter.go:133-138): always the terminal transition. -/
def onDelete (l : State) (j : K8sJob) : State × Nat :=
  markComplete l (getUuid j)

/-- Startup replay: one `OnAdd` per pre-existing object. -/
def replayAdds (l : State) (jobs : List K8sJob) : State :=
  List.foldl onAdd l jobs

/-- A sequence of `Create` calls (uncancelled, blocked calls leave the
state unchanged). -/
def admitAll (downstream : String → Option String) (l : State)
    (uuids : List String) : State :=
  List.foldl
    (fun s u =>
      match create downstream s u false with
      | some r => r.state
      | none => s)
    l uuids

/-! ### Helper lemmas -/

lemma add_of_mem (d : String → Option String) (l : State) (u : String)
    (h : u ∈ l.inFlight) : add d l u = ⟨none, l, 0⟩ := by
  unfold add; simp [h]

lemma add_of_ok (d : String → Option String) (l : State) (u : String)
    (h : u ∉ l.inFlight) (hd : d u = none) :
    add d l u = ⟨none, { l with inFlight := insert u l.inFlight }, 1⟩ := by
  unfold add; simp [h, hd]

lemma add_of_err (d : String → Option String) (l : State) (u : String)
    (e : String) (h : u ∉ l.inFlight) (hd : d u = some e) :
    add d l u = ⟨some e, l, 1⟩ := by
  unfold add; simp [h, hd]

lemma add_completions (d : String → Option String) (l : State) (u : String) :
    (add d l u).state.completions = l.completions := by
  unfold add
  by_cases h : u ∈ l.inFlight
  · simp [h]
  · cases hd : d u <;> simp [h, hd]

lemma add_maxInFlight (d : String → Option String) (l : State) (u : String) :
    (add d l u).state.maxInFlight = l.maxInFlight := by
  unfold add
  by_cases h : u ∈ l.inFlight
  · simp [h]
  · cases hd : d u <;> simp [h, hd]

lemma create_no_wait (d : String → Option String) (l : State) (u : String)
    (h : ¬(0 < l.maxInFlight ∧ l.maxInFlight ≤ l.inFlight.card)) :
    create d l u false = some (add d l u) := by
  unfold create; simp [h]

lemma blockedReceive_zero (d : String → Option String) (l : State)
    (u : String) (c : Bool) (h : l.completions = 0) :
    blockedReceive d l u c = none := by
  unfold blockedReceive; rw [h]

lemma blockedReceive_succ (d : String → Option String) (l : State)
    (u : String) (c : Bool) (n : Nat) (h : l.completions = n + 1) :
    blockedReceive d l u c =
      (if c then some ⟨none, { l with completions := n }, 0⟩
       else some (add d { l with completions := n } u)) := by
  unfold blockedReceive; rw [h]

/-- A downstream scheduler that always succeeds (used in witnesses). -/
def demoDown : String → Option String := fun _ => none

/-- A downstream scheduler that always fails (used in witnesses). -/
def demoBoom : String → Option String := fun _ => some "boom"

lemma isFinished_foldl_any (cs : List JobCondition) (b : Bool) :
    cs.foldl
      (fun finished cond =>
        if cond.condType = JobComplete ∨ cond.condType = JobFailed then true
        else finished) b
      = (b || cs.any fun c =>
          decide (c.condType = JobComplete ∨ c.condType = JobFailed)) := by
  induction cs generalizing b with
  | nil => simp
  | cons c cs ih =>
    rw [List.foldl_cons, ih, List.any_cons]
    by_cases h : c.condType = JobComplete ∨ c.condType = JobFailed
    · simp [h]
    · simp [h]

/-- A pre-existing job with UUID label `a` and no status conditions
(not terminal); used in witnesses. -/
def demoJobA : K8sJob := ⟨[(UUIDLabel, "a")], []⟩

/-- A pre-existing job with UUID label `b` and no status conditions. -/
def demoJobB : K8sJob := ⟨[(UUIDLabel, "b")], []⟩

/-- A job with UUID label `c` carrying a `Complete` condition whose
`Status` is `False` — terminal for `isFinished`, which ignores the
truth value. -/
def demoJobDone : K8sJob := ⟨[(UUIDLabel, "c")], [⟨JobComplete, "False"⟩]⟩

lemma onAdd_eq (l : State) (j : K8sJob) :
    onAdd l j =
      (if isFinished j then l
       else { l with inFlight := insert (getUuid j) l.inFlight }) := by
  unfold onAdd
  by_cases hf : isFinished j = true
  · simp [hf]
  · rw [if_neg hf, if_neg hf]
    by_cases hm : getUuid j ∈ l.inFlight
    · rw [if_pos hm, Finset.insert_eq_self.mpr hm]
    · rw [if_neg hm]

lemma replayAdds_spec : ∀ (jobs : List K8sJob) (l : State),
    (replayAdds l jobs).inFlight =
      l.inFlight ∪
        (List.map getUuid (List.filter (fun j => !isFinished j) jobs)).toFinset ∧
    (replayAdds l jobs).completions = l.completions ∧
    (replayAdds l jobs).maxInFlight = l.maxInFlight := by
  intro jobs
  induction jobs with
  | nil => intro l; simp [replayAdds]
  | cons j js ih =>
    intro l
    have hstep : replayAdds l (j :: js) = replayAdds (onAdd l j) js := rfl
    rw [hstep, onAdd_eq l j]
    by_cases hf : isFinished j = true
    · rw [if_pos hf]
      rcases ih l with ⟨h1, h2, h3⟩
      refine ⟨?_, h2, h3⟩
      rw [h1]
      simp [List.filter_cons, hf]
    · rw [if_neg hf]
      rcases ih { l with inFlight := insert (getUuid j) l.inFlight } with
        ⟨h1, h2, h3⟩
      refine ⟨?_, h2, h3⟩
      rw [h1]
      simp only [List.filter_cons, hf, Bool.not_false, if_true, List.map_cons,
        List.toFinset_cons, Finset.union_insert, Finset.insert_union]

lemma create_zero_max (d : String → Option String) (l : State) (u : String)
    (c : Bool) (h0 : l.maxInFlight = 0) :
    create d l u c = (if c then some ⟨none, l, 0⟩ else some (add d l u)) := by
  have hA : ¬(0 < l.maxInFlight ∧ l.maxInFlight ≤ l.inFlight.card) := by
    rw [h0]; simp
  unfold create
  rw [if_neg hA]

lemma create_zero_max_completions (d : String → Option String) (l : State)
    (u : String) (c : Bool) (h0 : l.maxInFlight = 0) :
    Option.map (fun r => r.state.completions) (create d l u c) =
      some l.completions := by
  rw [create_zero_max d l u c h0]
  by_cases hc : c = true
  · rw [if_pos hc]; rfl
  · rw [if_neg hc]; simp [add_completions]

lemma admitAll_ok (d : String → Option String) (hd : ∀ u, d u = none) :
    ∀ (us : List String) (l : State), us.Nodup →
      (∀ u ∈ us, u ∉ l.inFlight) →
      l.inFlight.card + us.length ≤ l.maxInFlight →
      admitAll d l us = { l with inFlight := l.inFlight ∪ us.toFinset } := by
  intro us
  induction us with
  | nil =>
    intro l _ _ _
    rw [List.toFinset_nil, Finset.union_empty]
    rfl
  | cons u us ih =>
    intro l hnd hdisj hcard
    have hu : u ∉ l.inFlight := hdisj u (List.mem_cons_self u us)
    have hmaxpos : ¬(0 < l.maxInFlight ∧ l.maxInFlight ≤ l.inFlight.card) := by
      rintro ⟨-, hle⟩
      simp only [List.length_cons] at hcard
      omega
    have hstep : admitAll d l (u :: us) =
        admitAll d { l with inFlight := insert u l.inFlight } us := by
      show List.foldl _ _ _ = _
      rw [List.foldl_cons]
      congr 1
      show (match create d l u false with
            | some r => r.state
            | none => l) = _
      rw [create_no_wait d l u hmaxpos, add_of_ok d l u hu (hd u)]
    have hdisj' : ∀ v ∈ us,
        v ∉ ({ l with inFlight := insert u l.inFlight } : State).inFlight := by
      intro v hv
      have hvne : v ≠ u := by
        rcases List.nodup_cons.mp hnd with ⟨hun, -⟩
        intro he; exact hun (he ▸ hv)
      have hvl : v ∉ l.inFlight := hdisj v (List.mem_cons_of_mem u hv)
      simp [Finset.mem_insert, hvne, hvl]
    have hcard' :
        ({ l with inFlight := insert u l.inFlight } : State).inFlight.card +
          us.length ≤
          ({ l with inFlight := insert u l.inFlight } : State).maxInFlight := by
      show (insert u l.inFlight).card + us.length ≤ l.maxInFlight
      rw [Finset.card_insert_of_not_mem hu]
      simp only [List.length_cons] at hcard
      omega
    rw [hstep, ih _ (List.Nodup.of_cons hnd) hdisj' hcard']
    simp only [List.toFinset_cons, Finset.union_insert, Finset.insert_union]

/-! ### Claim theorems -/

/-- Claim C10: the terminal-state predicate `isFinished` depends only on
the types of the job's status conditions, never on their truth values:
it returns `true` iff some condition has type `Complete` or `Failed`
(whatever its `Status` field holds), and a job with an empty condition
list is never terminal. -/
theorem isFinished_depends_only_on_condition_types (j : K8sJob) :
    (isFinished j = true ↔
      ∃ c ∈ j.conditions, c.condType = JobComplete ∨ c.condType = JobFailed) ∧
    isFinished ⟨j.labels, []⟩ = false := by
  constructor
  · unfold isFinished
    rw [isFinished_foldl_any]
    simp [List.any_eq_true]
  · rfl

/-- Claim C2: admission is idempotent.  Whenever `Create` returns for a
UUID already in flight, it returns nil, performs no downstream launch
and leaves the in-flight set unchanged; hence two calls for the same
UUID (first not yet tracked, downstream succeeding) perform exactly one
downstream launch between them. -/
theorem create_duplicate_admission_noop :
    (∀ (d : String → Option String) (l : State) (u : String) (c : Bool)
        (r : OpResult),
        u ∈ l.inFlight → create d l u c = some r →
          r.err = none ∧ r.launches = 0 ∧ r.state.inFlight = l.inFlight) ∧
    (∀ (d : String → Option String) (l : State) (u : String),
        u ∉ l.inFlight → d u = none →
          (add d l u).launches = 1 ∧
          (add d (add d l u).state u).launches = 0 ∧
          (add d (add d l u).state u).err = none ∧
          (add d (add d l u).state u).state = (add d l u).state) := by
  constructor
  · intro d l u c r hmem hcr
    by_cases hA : 0 < l.maxInFlight ∧ l.maxInFlight ≤ l.inFlight.card
    · unfold create at hcr
      rw [if_pos hA] at hcr
      cases hcomp : l.completions with
      | zero =>
        rw [blockedReceive_zero d l u c hcomp] at hcr
        exact absurd hcr (by simp)
      | succ n =>
        rw [blockedReceive_succ d l u c n hcomp] at hcr
        by_cases hc : c
        · rw [if_pos hc] at hcr
          have hval := Option.some.inj hcr
          subst hval
          exact ⟨rfl, rfl, rfl⟩
        · rw [if_neg hc] at hcr
          have hval := Option.some.inj hcr
          rw [add_of_mem d { l with completions := n } u (by simpa using hmem)]
            at hval
          subst hval
          exact ⟨rfl, rfl, rfl⟩
    · unfold create at hcr
      rw [if_neg hA] at hcr
      by_cases hc : c
      · rw [if_pos hc] at hcr
        have hval := Option.some.inj hcr
        subst hval
        exact ⟨rfl, rfl, rfl⟩
      · rw [if_neg hc] at hcr
        have hval := Option.some.inj hcr
        rw [add_of_mem d l u hmem] at hval
        subst hval
        exact ⟨rfl, rfl, rfl⟩
  · intro d l u hmem hd
    rw [add_of_ok d l u hmem hd]
    rw [add_of_mem d { l with inFlight := insert u l.inFlight } u
      (Finset.mem_insert_self u l.inFlight)]
    exact ⟨rfl, rfl, rfl, rfl⟩

/-- Witness for C2 at concrete inputs. -/
theorem create_duplicate_admission_noop_witness :
    ((⟨none, ⟨0, {"a"}, 0⟩, 0⟩ : OpResult).err = none ∧
     (⟨none, ⟨0, {"a"}, 0⟩, 0⟩ : OpResult).launches = 0 ∧
     (⟨none, ⟨0, {"a"}, 0⟩, 0⟩ : OpResult).state.inFlight =
       (⟨0, {"a"}, 0⟩ : State).inFlight) ∧
    ((add demoDown ⟨0, ∅, 0⟩ "a").launches = 1 ∧
     (add demoDown (add demoDown ⟨0, ∅, 0⟩ "a").state "a").launches = 0 ∧
     (add demoDown (add demoDown ⟨0, ∅, 0⟩ "a").state "a").err = none ∧
     (add demoDown (add demoDown ⟨0, ∅, 0⟩ "a").state "a").state =
       (add demoDown ⟨0, ∅, 0⟩ "a").state) :=
  ⟨create_duplicate_admission_noop.1 demoDown ⟨0, {"a"}, 0⟩ "a" false
      ⟨none, ⟨0, {"a"}, 0⟩, 0⟩ (by decide) (by decide),
   create_duplicate_admission_noop.2 demoDown ⟨0, ∅, 0⟩ "a" (by decide) rfl⟩

/-- Claim C3: when the downstream scheduler fails for a UUID not yet
tracked, `add` (and hence `Create`) propagates exactly that error,
leaves the in-flight set unchanged and does not record the UUID, so a
retry is treated as a first attempt. -/
theorem create_propagates_downstream_error :
    ∀ (d : String → Option String) (l : State) (u e : String),
      u ∉ l.inFlight → d u = some e →
        add d l u = ⟨some e, l, 1⟩ ∧
        (∀ r, create d l u false = some r →
            r.err = some e ∧ r.state.inFlight = l.inFlight ∧
            u ∉ r.state.inFlight ∧ r.launches = 1) := by
  intro d l u e hmem hd
  refine ⟨add_of_err d l u e hmem hd, ?_⟩
  intro r hcr
  by_cases hA : 0 < l.maxInFlight ∧ l.maxInFlight ≤ l.inFlight.card
  · unfold create at hcr
    rw [if_pos hA] at hcr
    cases hcomp : l.completions with
    | zero =>
      rw [blockedReceive_zero d l u false hcomp] at hcr
      exact absurd hcr (by simp)
    | succ n =>
      rw [blockedReceive_succ d l u false n hcomp] at hcr
      rw [if_neg (by simp)] at hcr
      have hval := Option.some.inj hcr
      rw [add_of_err d { l with completions := n } u e (by simpa using hmem) hd]
        at hval
      subst hval
      exact ⟨rfl, rfl, hmem, rfl⟩
  · rw [create_no_wait d l u hA] at hcr
    have hval := Option.some.inj hcr
    rw [add_of_err d l u e hmem hd] at hval
    subst hval
    exact ⟨rfl, rfl, hmem, rfl⟩

/-- Witness for C3 at concrete inputs. -/
theorem create_propagates_downstream_error_witness :
    (add demoBoom ⟨0, ∅, 0⟩ "a" = ⟨some "boom", ⟨0, ∅, 0⟩, 1⟩) ∧
    ((⟨some "boom", ⟨0, ∅, 0⟩, 1⟩ : OpResult).err = some "boom" ∧
     (⟨some "boom", ⟨0, ∅, 0⟩, 1⟩ : OpResult).state.inFlight =
       (⟨0, ∅, 0⟩ : State).inFlight ∧
     "a" ∉ (⟨some "boom", ⟨0, ∅, 0⟩, 1⟩ : OpResult).state.inFlight ∧
     (⟨some "boom", ⟨0, ∅, 0⟩, 1⟩ : OpResult).launches = 1) := by
  have h := create_propagates_downstream_error demoBoom ⟨0, ∅, 0⟩ "a" "boom"
    (by decide) rfl
  exact ⟨h.1, h.2 ⟨some "boom", ⟨0, ∅, 0⟩, 1⟩ (by decide)⟩

/-- Claim C4: the terminal transition removes a tracked identifier and
enqueues exactly one completion token, and is a complete no-op for an
untracked identifier; delivering `OnDelete` twice for the same object
therefore yields exactly one token (the second call changes nothing),
and `OnDelete` for a never-tracked object yields none. -/
theorem markComplete_terminal_transition (l : State) (j : K8sJob) :
    markComplete l (getUuid j) =
      (if getUuid j ∈ l.inFlight then
        ({ l with inFlight := l.inFlight.erase (getUuid j),
                  completions := l.completions + 1 }, 1)
       else (l, 0)) ∧
    (onDelete (onDelete l j).1 j).2 = 0 ∧
    (onDelete (onDelete l j).1 j).1 = (onDelete l j).1 ∧
    ((onDelete l j).2 + (onDelete (onDelete l j).1 j).2 =
      if getUuid j ∈ l.inFlight then 1 else 0) := by
  refine ⟨rfl, ?_, ?_, ?_⟩ <;>
    · unfold onDelete markComplete
      by_cases h : getUuid j ∈ l.inFlight
      · simp [h, Finset.not_mem_erase]
      · simp [h]

/-- Claim C6: with `MaxInFlight = 0` admission is unlimited — `Create`
never enters the capacity wait (it goes straight to the cancellation
check and the idempotent `add`), never blocks, and consumes no
completion token, whatever the in-flight size. -/
theorem create_unlimited_when_zero_max :
    ∀ (d : String → Option String) (l : State) (u : String) (c : Bool),
      l.maxInFlight = 0 →
        create d l u c =
          (if c then some ⟨none, l, 0⟩ else some (add d l u)) ∧
        Option.map (fun r => r.state.completions) (create d l u c) =
          some l.completions := by
  intro d l u c h0
  have hA : ¬(0 < l.maxInFlight ∧ l.maxInFlight ≤ l.inFlight.card) := by
    rw [h0]; simp
  constructor
  · unfold create
    rw [if_neg hA]
  · unfold create
    rw [if_neg hA]
    by_cases hc : c = true
    · rw [if_pos hc]; rfl
    · rw [if_neg hc]
      simp [add_completions]

/-- Witness for C6 at concrete inputs: three jobs already in flight,
ceiling 0, a fourth admission goes straight through. -/
theorem create_unlimited_when_zero_max_witness :
    create demoDown ⟨0, {"a", "b", "c"}, 0⟩ "d" false =
      (if false then some ⟨none, ⟨0, {"a", "b", "c"}, 0⟩, 0⟩
       else some (add demoDown ⟨0, {"a", "b", "c"}, 0⟩ "d")) ∧
    Option.map (fun r => r.state.completions)
        (create demoDown ⟨0, {"a", "b", "c"}, 0⟩ "d" false) =
      some (⟨0, {"a", "b", "c"}, 0⟩ : State).completions :=
  create_unlimited_when_zero_max demoDown ⟨0, {"a", "b", "c"}, 0⟩ "d" false rfl

/-- Claim C9: `OnUpdate` ignores the old object entirely; a terminal
new object goes through the same terminal transition as `OnDelete`,
and a non-terminal one is recorded in flight with no token emitted
(`insert` makes this a no-op when already tracked). -/
theorem onUpdate_ignores_old_object (l : State) (o1 o2 j : K8sJob) :
    onUpdate l o1 j = onUpdate l o2 j ∧
    onUpdate l o1 j =
      (if isFinished j then onDelete l j
       else ({ l with inFlight := insert (getUuid j) l.inFlight }, 0)) := by
  refine ⟨rfl, ?_⟩
  unfold onUpdate onDelete
  by_cases hf : isFinished j = true
  · rw [if_pos hf, if_pos hf]
  · rw [if_neg hf, if_neg hf]
    by_cases hm : getUuid j ∈ l.inFlight
    · rw [if_pos hm, Finset.insert_eq_self.mpr hm]
    · rw [if_neg hm]

/-- Claim C8: `OnAdd` tracks an object exactly when it is not terminal
(idempotently, via `insert`), never touches the completion channel,
and replaying any list of pre-existing objects whose non-terminal
members carry distinct UUIDs into a fresh limiter leaves exactly the
number of non-terminal objects in flight. -/
theorem onAdd_startup_replay :
    (∀ (l : State) (j : K8sJob),
        onAdd l j =
          (if isFinished j then l
           else { l with inFlight := insert (getUuid j) l.inFlight }) ∧
        (onAdd l j).completions = l.completions) ∧
    (∀ (m : Nat) (jobs : List K8sJob),
        (List.map getUuid (List.filter (fun j => !isFinished j) jobs)).Nodup →
        (replayAdds (newLimiter m) jobs).inFlight.card =
          (List.filter (fun j => !isFinished j) jobs).length) := by
  constructor
  · intro l j
    refine ⟨onAdd_eq l j, ?_⟩
    rw [onAdd_eq l j]
    by_cases hf : isFinished j = true
    · rw [if_pos hf]
    · rw [if_neg hf]
  · intro m jobs hnd
    rcases replayAdds_spec jobs (newLimiter m) with ⟨h1, -, -⟩
    rw [h1]
    show ((∅ : Finset String) ∪ _).card = _
    rw [Finset.empty_union, List.toFinset_card_of_nodup hnd, List.length_map]

/-- Witness for C8: replaying two live jobs and one completed job into
a fresh limiter leaves exactly two identifiers in flight. -/
theorem onAdd_startup_replay_witness :
    (onAdd (newLimiter 0) demoJobA =
      (if isFinished demoJobA then newLimiter 0
       else { newLimiter 0 with
                inFlight := insert (getUuid demoJobA) (newLimiter 0).inFlight }) ∧
     (onAdd (newLimiter 0) demoJobA).completions =
       (newLimiter 0).completions) ∧
    (replayAdds (newLimiter 0) [demoJobA, demoJobB, demoJobDone]).inFlight.card =
      (List.filter (fun j => !isFinished j)
        [demoJobA, demoJobB, demoJobDone]).length :=
  ⟨onAdd_startup_replay.1 (newLimiter 0) demoJobA,
   onAdd_startup_replay.2 0 [demoJobA, demoJobB, demoJobDone] (by decide)⟩

/-- Counterexample to claim C1 as stated.  At the reachable state with
ceiling 1, one job in flight and no queued token, a caller whose
context is already cancelled does **not** return: the channel receive
of `Create` (limiter.go:74) does not select on `ctx.Done()`, so the
call stays blocked (first conjunct).  And once a token does arrive,
the cancelled call returns only after consuming it — the completion
count drops from 1 to 0 (second conjunct) — contradicting "returns
immediately ... no completion token is consumed". -/
theorem create_cancelled_wait_counterexample :
    create demoDown ⟨1, {"a"}, 0⟩ "b" true = none ∧
    create demoDown ⟨1, {"a"}, 1⟩ "b" true =
      some ⟨none, ⟨1, {"a"}, 0⟩, 0⟩ :=
  ⟨by decide, by decide⟩

/-- Claim C1 (amended): cancellation does not interrupt the capacity
wait — a caller blocked at capacity returns iff a token is queued
(consuming it) whatever the cancellation status; whenever a cancelled
`Create` call does return, it returns nil, performs no downstream
launch, leaves the in-flight set unchanged, and (if it went through
the capacity wait) has consumed exactly one completion token. -/
theorem create_cancelled_noop_after_wait :
    ∀ (d : String → Option String) (l : State) (u : String),
      (create d l u true = none ↔
        0 < l.maxInFlight ∧ l.maxInFlight ≤ l.inFlight.card ∧
          l.completions = 0) ∧
      (∀ r, create d l u true = some r →
        r.err = none ∧ r.launches = 0 ∧ r.state.inFlight = l.inFlight ∧
        (0 < l.maxInFlight ∧ l.maxInFlight ≤ l.inFlight.card →
          r.state.completions + 1 = l.completions)) := by
  intro d l u
  by_cases hA : 0 < l.maxInFlight ∧ l.maxInFlight ≤ l.inFlight.card
  · cases hcomp : l.completions with
    | zero =>
      have hcr : create d l u true = none := by
        unfold create
        rw [if_pos hA]
        exact blockedReceive_zero d l u true hcomp
      constructor
      · rw [hcr]
        simp [hA.1, hA.2, hcomp]
      · intro r hr
        rw [hcr] at hr
        exact absurd hr (by simp)
    | succ n =>
      have hcr : create d l u true =
          some ⟨none, { l with completions := n }, 0⟩ := by
        unfold create
        rw [if_pos hA, blockedReceive_succ d l u true n hcomp, if_pos rfl]
      constructor
      · rw [hcr]
        simp [hcomp]
      · intro r hr
        rw [hcr] at hr
        have hval := Option.some.inj hr
        subst hval
        exact ⟨rfl, rfl, rfl, fun _ => rfl⟩
  · have hcr : create d l u true = some ⟨none, l, 0⟩ := by
      unfold create
      rw [if_neg hA, if_pos rfl]
    constructor
    · rw [hcr]
      constructor
      · intro h; exact absurd h (by simp)
      · rintro ⟨h1, h2, -⟩; exact absurd ⟨h1, h2⟩ hA
    · intro r hr
      rw [hcr] at hr
      have hval := Option.some.inj hr
      subst hval
      exact ⟨rfl, rfl, rfl, fun h => absurd h hA⟩

/-- Witness for the amended C1: ceiling 1, one job in flight, one
queued token, context cancelled — the call returns having consumed
the token. -/
theorem create_cancelled_noop_after_wait_witness :
    (⟨none, ⟨1, {"a"}, 0⟩, 0⟩ : OpResult).state.completions + 1 =
      (⟨1, {"a"}, 1⟩ : State).completions :=
  ((create_cancelled_noop_after_wait demoDown ⟨1, {"a"}, 1⟩ "b").2
    ⟨none, ⟨1, {"a"}, 0⟩, 0⟩ (by decide)).2.2.2 (by decide)

/-- Counterexample to claim C7 as stated.  The state reached from a
fresh limiter with ceiling 0 by replaying one live job is one in which
`markComplete` removes a tracked identifier and emits a token, yet the
channel — fixed at capacity 0 by `NewLimiter` — has no free slot, so
the send blocks. -/
theorem markComplete_no_free_slot_counterexample :
    getUuid demoJobA ∈ (onAdd (newLimiter 0) demoJobA).inFlight ∧
    (markComplete (onAdd (newLimiter 0) demoJobA) (getUuid demoJobA)).2 = 1 ∧
    ¬ sendHasFreeSlot (onAdd (newLimiter 0) demoJobA) :=
  ⟨by decide, by decide, by decide⟩

/-- Claim C7 (amended): the token enqueue of `markComplete` is not
always backed by a free channel slot.  With ceiling 0 the channel has
capacity 0: a terminal transition of a tracked identifier emits its
token with no free slot, and no `Create` call ever receives from the
channel to unblock the send (token count preserved by every returning
`Create`). -/
theorem markComplete_send_can_block :
    ∀ (l : State) (u : String), l.maxInFlight = 0 → u ∈ l.inFlight →
      (markComplete l u).2 = 1 ∧
      ¬ sendHasFreeSlot l ∧
      (∀ d v c, Option.map (fun r => r.state.completions) (create d l v c) =
        some l.completions) := by
  intro l u h0 hu
  refine ⟨?_, ?_, ?_⟩
  · unfold markComplete
    rw [if_pos hu]
  · unfold sendHasFreeSlot
    rw [h0]
    simp
  · intro d v c
    exact create_zero_max_completions d l v c h0

/-- Witness for the amended C7: ceiling 0 with job `a` tracked. -/
theorem markComplete_send_can_block_witness :
    (markComplete ⟨0, {"a"}, 0⟩ "a").2 = 1 ∧
    ¬ sendHasFreeSlot ⟨0, {"a"}, 0⟩ ∧
    (∀ d v c, Option.map (fun r => r.state.completions)
        (create d ⟨0, {"a"}, 0⟩ v c) =
      some (⟨0, {"a"}, 0⟩ : State).completions) :=
  markComplete_send_can_block ⟨0, {"a"}, 0⟩ "a" rfl (by decide)

/-- Claim C5: with ceiling `N > 0`, admitting `N` distinct UUIDs (all
downstream launches succeeding) from a fresh limiter fills the
in-flight set to exactly `N`; any further `Create` call blocks
(returns nothing) whatever its cancellation status; after one terminal
transition for a tracked identifier enqueues its single token, a
parked caller's channel receive completes consuming that token — and
exactly one: with the token consumed, any further parked receive is
blocked again. -/
theorem capacity_blocks_at_limit :
    ∀ (N : Nat) (us : List String) (d : String → Option String),
      0 < N → us.Nodup → us.length = N → (∀ u, d u = none) →
      (admitAll d (newLimiter N) us).inFlight.card = N ∧
      (∀ u c, create d (admitAll d (newLimiter N) us) u c = none) ∧
      (∀ u₀, u₀ ∈ (admitAll d (newLimiter N) us).inFlight →
        (markComplete (admitAll d (newLimiter N) us) u₀).2 = 1 ∧
        (∀ u', (blockedReceive d
            (markComplete (admitAll d (newLimiter N) us) u₀).1 u'
            false).isSome = true) ∧
        (∀ u' r, blockedReceive d
            (markComplete (admitAll d (newLimiter N) us) u₀).1 u' false =
              some r →
          r.state.completions = 0 ∧
          (∀ u'' c, blockedReceive d r.state u'' c = none))) := by
  intro N us d hN hnd hlen hd
  have hcardus : us.toFinset.card = N := by
    rw [List.toFinset_card_of_nodup hnd, hlen]
  have hall : admitAll d (newLimiter N) us = ⟨N, us.toFinset, 0⟩ := by
    rw [admitAll_ok d hd us (newLimiter N) hnd
      (by intro u _; simp [newLimiter])
      (by simp [newLimiter, hlen])]
    show ({ newLimiter N with inFlight := (newLimiter N).inFlight ∪ us.toFinset }
      : State) = _
    rw [show (newLimiter N).inFlight = (∅ : Finset String) from rfl,
      Finset.empty_union]
    rfl
  rw [hall]
  refine ⟨hcardus, ?_, ?_⟩
  · intro u c
    unfold create
    rw [if_pos ⟨hN, le_of_eq hcardus.symm⟩]
    exact blockedReceive_zero d _ u c rfl
  · intro u₀ hu₀
    have hmc : markComplete ⟨N, us.toFinset, 0⟩ u₀ =
        (⟨N, us.toFinset.erase u₀, 1⟩, 1) := by
      unfold markComplete
      rw [if_pos hu₀]
    rw [hmc]
    refine ⟨rfl, ?_, ?_⟩
    · intro u'
      rw [blockedReceive_succ d _ u' false 0 rfl, if_neg (by simp)]
      rfl
    · intro u' r hr
      rw [blockedReceive_succ d _ u' false 0 rfl, if_neg (by simp)] at hr
      have hval := Option.some.inj hr
      subst hval
      refine ⟨add_completions d _ u', ?_⟩
      intro u'' c
      exact blockedReceive_zero d _ u'' c (add_completions d _ u')

/-- Witness for C5: ceiling 1, one admitted job, a second `Create`
call is blocked. -/
theorem capacity_blocks_at_limit_witness :
    create demoDown (admitAll demoDown (newLimiter 1) ["a"]) "b" false =
      none :=
  (capacity_blocks_at_limit 1 ["a"] demoDown (by decide) (by decide) rfl
    (fun _ => rfl)).2.1 "b" false

end Limiter
